import Mathlib

/-!
Verification of the camara-cl-api urgency-resolution pipeline.

Shallow embedding of `src/utils.py` (`fetch_content`, `clean_text`) and of
`src/fetch_urgencias.py` (the three memoized resolution stages, the table
extractor, and the per-seed driver loop), with network responses abstracted
as an oracle environment and fetch/warning events tracked explicitly.

Text is modelled as `List Char`.
-/

namespace Camara

/-- Text values, as in the Python source where they are `str`. -/
abbrev Str := List Char

/-! ## `utils.clean_text`

`clean_text` is `" ".join(text.split())` guarded by truthiness of `text`.
Python's `str.split()` with no argument splits on runs of whitespace and
drops empty pieces; we model the whitespace class explicitly. -/

/-- The characters Python's `str.split()` treats as whitespace
(ASCII subset: space, tab, newline, carriage return, vertical tab, form feed). -/
def isSpacePy (c : Char) : Bool :=
  c == ' ' || c == '\t' || c == '\n' || c == '\r' ||
  c == Char.ofNat 11 || c == Char.ofNat 12

theorem length_dropWhile_le (p : Char → Bool) (l : List Char) :
    (l.dropWhile p).length ≤ l.length := by
  induction l with
  | nil => simp
  | cons c cs ih =>
    by_cases h : p c
    · simp only [List.dropWhile_cons_of_pos h]
      exact Nat.le_succ_of_le ih
    · simp [List.dropWhile_cons_of_neg h]

/-- Python `text.split()`: the maximal runs of non-whitespace characters. -/
def pwords : Str → List Str
  | [] => []
  | c :: cs =>
    if isSpacePy c then pwords cs
    else (c :: cs.takeWhile (fun x => !isSpacePy x)) ::
         pwords (cs.dropWhile (fun x => !isSpacePy x))
termination_by l => l.length
decreasing_by
  · simp only [List.length_cons]; omega
  · simp only [List.length_cons]
    exact Nat.lt_succ_of_le (length_dropWhile_le _ cs)

/-- Python `" ".join(ws)`. -/
def joinSpace : List Str → Str
  | [] => []
  | [w] => w
  | w :: ws => w ++ ' ' :: joinSpace ws

/-- `utils.clean_text`: `" ".join(text.split())` when `text` is truthy,
else the empty string. -/
def clean_text (t : Str) : Str :=
  if t = [] then [] else joinSpace (pwords t)

/-- A word, as produced by `pwords`: nonempty and whitespace-free. -/
def IsWord (w : Str) : Prop := w ≠ [] ∧ ∀ c ∈ w, isSpacePy c = false

theorem pwords_words (l : Str) : ∀ w ∈ pwords l, IsWord w := by
  induction l using pwords.induct with
  | case1 => simp [pwords]
  | case2 c cs hsp ih =>
    simpa [pwords, hsp] using ih
  | case3 c cs hsp ih =>
    intro w hw
    simp only [pwords, if_neg hsp, List.mem_cons] at hw
    rcases hw with rfl | hw
    · refine ⟨by simp, ?_⟩
      intro x hx
      rcases List.mem_cons.mp hx with rfl | hx
      · simpa using hsp
      · simpa using List.mem_takeWhile_imp hx
    · exact ih w hw

theorem takeWhile_append_all {p : Char → Bool} {l₁ : Str} (l₂ : Str)
    (h : ∀ c ∈ l₁, p c = true) :
    (l₁ ++ l₂).takeWhile p = l₁ ++ l₂.takeWhile p := by
  induction l₁ with
  | nil => simp
  | cons c cs ih =>
    have hc : p c = true := h c (by simp)
    simp only [List.cons_append, List.takeWhile_cons_of_pos hc, List.cons.injEq,
      true_and]
    exact ih fun x hx => h x (by simp [hx])

theorem dropWhile_append_all {p : Char → Bool} {l₁ : Str} (l₂ : Str)
    (h : ∀ c ∈ l₁, p c = true) :
    (l₁ ++ l₂).dropWhile p = l₂.dropWhile p := by
  induction l₁ with
  | nil => simp
  | cons c cs ih =>
    have hc : p c = true := h c (by simp)
    simp only [List.cons_append, List.dropWhile_cons_of_pos hc]
    exact ih fun x hx => h x (by simp [hx])

/-- Splitting a single whitespace-free nonempty word returns just that word. -/
theorem pwords_of_word {w : Str} (hw : IsWord w) : pwords w = [w] := by
  obtain ⟨hne, hchars⟩ := hw
  obtain ⟨c, cs, rfl⟩ := List.exists_cons_of_ne_nil hne
  have hc : isSpacePy c = false := hchars c (by simp)
  have hall : ∀ x ∈ cs, (fun y => !isSpacePy y) x = true := by
    intro x hx; simp [hchars x (by simp [hx])]
  rw [pwords, if_neg (by simp [hc])]
  have ht : cs.takeWhile (fun x => !isSpacePy x) = cs :=
    List.takeWhile_eq_self_iff.mpr hall
  have hd : cs.dropWhile (fun x => !isSpacePy x) = [] :=
    List.dropWhile_eq_nil_iff.mpr fun x hx => by simp [hchars x (by simp [hx])]
  rw [ht, hd, pwords]

/-- Splitting a word followed by a space-led remainder peels off the word. -/
theorem pwords_word_append {w : Str} (hw : IsWord w) (rest : Str) :
    pwords (w ++ ' ' :: rest) = w :: pwords rest := by
  obtain ⟨hne, hchars⟩ := hw
  obtain ⟨c, cs, rfl⟩ := List.exists_cons_of_ne_nil hne
  have hc : isSpacePy c = false := hchars c (by simp)
  have hall : ∀ x ∈ cs, (fun y => !isSpacePy y) x = true := by
    intro x hx; simp [hchars x (by simp [hx])]
  rw [List.cons_append, pwords, if_neg (by simp [hc])]
  have ht : (cs ++ ' ' :: rest).takeWhile (fun x => !isSpacePy x) = cs := by
    rw [takeWhile_append_all _ hall]
    rw [List.takeWhile_cons_of_neg (by simp [isSpacePy])]
    simp
  have hd : (cs ++ ' ' :: rest).dropWhile (fun x => !isSpacePy x) = ' ' :: rest := by
    rw [dropWhile_append_all _ hall]
    rw [List.dropWhile_cons_of_neg (by simp [isSpacePy])]
  rw [ht, hd]
  have : pwords (' ' :: rest) = pwords rest := by
    rw [pwords, if_pos (by simp [isSpacePy])]
  rw [this]

/-- Splitting the space-joined concatenation of words recovers the words. -/
theorem pwords_joinSpace {ws : List Str} (h : ∀ w ∈ ws, IsWord w) :
    pwords (joinSpace ws) = ws := by
  induction ws with
  | nil => simp [joinSpace, pwords]
  | cons w ws ih =>
    cases ws with
    | nil =>
      simpa [joinSpace] using pwords_of_word (h w (by simp))
    | cons w₂ ws₂ =>
      have hj : joinSpace (w :: w₂ :: ws₂) = w ++ ' ' :: joinSpace (w₂ :: ws₂) := rfl
      rw [hj, pwords_word_append (h w (by simp))]
      rw [ih fun x hx => h x (by simp [hx])]

/-! ## `utils.fetch_content`

The fetch loop is embedded with the HTTP layer abstracted as an oracle
mapping the attempt index to `some content` (success) or `none`
(`requests.RequestException`). Besides the result we record, as
instrumentation, the ordered list of `time.sleep` durations and the number
of `requests.get` calls performed. Delays are rationals (seconds). -/

/-- One iteration of `for attempt in range(retries)`: sleep `sleep_time`,
attempt the request; on success return the content, on failure sleep
`sleep_time * 2` and continue. `sleep_time` is never reassigned. -/
def fetchGo (oracle : Nat → Option Str) (sleep_time : ℚ) :
    Nat → Nat → Option Str × List ℚ × Nat
  | 0, _ => (none, [], 0)
  | n + 1, i =>
    match oracle i with
    | some content => (some content, [sleep_time], 1)
    | none =>
      let r := fetchGo oracle sleep_time n (i + 1)
      (r.1, sleep_time :: sleep_time * 2 :: r.2.1, r.2.2 + 1)

/-- `utils.fetch_content(url, retries=3, sleep_time=0.5)`; the `url` is
subsumed by the oracle. Returns (content, sleep schedule, attempts made). -/
def fetch_content (oracle : Nat → Option Str) (retries : Nat := 3)
    (sleep_time : ℚ := 1/2) : Option Str × List ℚ × Nat :=
  fetchGo oracle sleep_time retries 0

theorem fetchGo_all_fail (oracle : Nat → Option Str) (s : ℚ)
    (h : ∀ i, oracle i = none) (n i : Nat) :
    fetchGo oracle s n i = (none, (List.replicate n [s, s * 2]).flatten, n) := by
  induction n generalizing i with
  | zero => simp [fetchGo]
  | succ m ih =>
    rw [fetchGo, h i, ih (i + 1)]
    simp [List.replicate_succ]

/-! ## `fetch_urgencias.py`: data model

The HTML layer is abstracted to the structure the code inspects: a document
is a list of tables; each table has an aggregate text (`get_text()`) and a
list of rows, each row a list of cell texts (`td` contents). -/

/-- One urgency row (`u_data` dict in `fetch_urgencias`). -/
structure UrgencyRecord where
  urgencia_fecha_inicio : Str
  urgencia_fecha_termino : Str
  urgencia_tipo : Str
  urgencia_oficio : Str
  urgencia_mensaje_ing : Str
  urgencia_mensaje_ret : Str
deriving DecidableEq

/-- An HTML table as seen by the extractor: aggregate text and rows of cells. -/
structure Table where
  text : Str
  rows : List (List Str)
deriving DecidableEq

/-- One output CSV row built in `main`. -/
structure OutputRow where
  vote_id : Str
  boletin : Str
  proyecto_id : Str
  urg : UrgencyRecord
deriving DecidableEq

/-- All-empty urgency fields, used for resolved chains with no urgencies. -/
def emptyUrg : UrgencyRecord := ⟨[], [], [], [], [], []⟩

/-- A `fetch_content` invocation, tagged by endpoint and query. -/
inductive FetchEv where
  | vdetail (vote_id : Str)
  | tram (boletin : Str)
  | urgpage (project_id boletin : Str)
deriving DecidableEq

/-- A `logging.warning` call: per-attempt fetch failures inside
`fetch_content`, and the missing-project-id warning in `main`. -/
inductive Warn where
  | attemptFail (ev : FetchEv)
  | noProjectId (boletin : Str)
deriving DecidableEq

/-- Outcome of fetching and parsing the urgency-listing page:
`fetch_content` returned `None`; `parse_html` returned `None`; or a parsed
document with its tables. -/
inductive PageResult where
  | httpFail
  | parseFail
  | ok (tables : List Table)

/-- The network/parsing oracle: what each endpoint yields in this run.
For the first two stages the two failure modes and "field absent" all
surface as the same empty-string result in the code, so `none` models an
HTTP failure (which logs per-attempt warnings) and `some b` a fetched and
parsed page whose extracted value is `b` (possibly empty). -/
structure Env where
  boletinOf : Str → Option Str
  projectOf : Str → Option Str
  urgPage : Str → Str → PageResult

/-- Module state: the three module-level caches, plus instrumentation
(fetch log, warnings) and the accumulated `results` rows. -/
structure St where
  vtb : List (Str × Str)
  btp : List (Str × Str)
  pu : List (Str × List UrgencyRecord)
  log : List FetchEv
  warn : List Warn
  out : List OutputRow
deriving DecidableEq

/-- The initial module state: empty caches, nothing fetched or emitted. -/
def st0 : St := ⟨[], [], [], [], [], []⟩

/-- Python dict lookup (`k in d` / `d[k]`); insertion is modelled by
consing, so the most recent binding wins. -/
def alookup {α : Type} (k : Str) : List (Str × α) → Option α
  | [] => none
  | (k₂, v) :: m => if k₂ = k then some v else alookup k m

/-- Occurrences of a fetch event in the log. -/
def countEv (e : FetchEv) (l : List FetchEv) : Nat :=
  (l.filter (fun x => x = e)).length

/-! ## The heuristic table extractor (`fetch_urgencias`, parsing part) -/

/-- Marker phrase `"Fecha Inicio"`. -/
def marker1 : Str := "Fecha Inicio".toList

/-- Marker phrase `"Tipo de urgencia"`. -/
def marker2 : Str := "Tipo de urgencia".toList

/-- `"Fecha Inicio" in table.get_text() or "Tipo de urgencia" in table.get_text()`. -/
def hasMarker (t : Table) : Bool :=
  decide (marker1 <:+: t.text) || decide (marker2 <:+: t.text)

/-- The `for table in tables: ... break` loop selecting `target_table`. -/
def findTarget : List Table → Option Table
  | [] => none
  | t :: ts => if hasMarker t then some t else findTarget ts

/-- One data row: skipped when it has fewer than 5 cells, otherwise the
`u_data` record with positional fields and the sixth cell defaulted. -/
def parseRow (cols : List Str) : Option UrgencyRecord :=
  if cols.length < 5 then none
  else some
    { urgencia_fecha_inicio := clean_text (cols.getD 0 [])
      urgencia_fecha_termino := clean_text (cols.getD 1 [])
      urgencia_tipo := clean_text (cols.getD 2 [])
      urgencia_oficio := clean_text (cols.getD 3 [])
      urgencia_mensaje_ing := clean_text (cols.getD 4 [])
      urgencia_mensaje_ret :=
        if 5 < cols.length then clean_text (cols.getD 5 []) else [] }

/-- The table-scanning and row-extraction part of `fetch_urgencias`,
applied to the parsed document. -/
def fetch_urgencias_parse (tables : List Table) : List UrgencyRecord :=
  match findTarget tables with
  | none => []
  | some t => (t.rows.drop 1).filterMap parseRow

/-! ## The three memoized resolution stages -/

/-- `fetch_boletin_for_vote(vote_id)`: cache lookup, else fetch the vote
detail XML and extract `Boletin`; only a nonempty bulletin is cached. -/
def fetch_boletin_for_vote (env : Env) (vote_id : Str) (s : St) : Str × St :=
  match alookup vote_id s.vtb with
  | some b => (b, s)
  | none =>
    match env.boletinOf vote_id with
    | none =>
      ([], { s with log := s.log ++ [.vdetail vote_id],
                    warn := s.warn ++
                      List.replicate 3 (.attemptFail (.vdetail vote_id)) })
    | some b =>
      if b = [] then ([], { s with log := s.log ++ [.vdetail vote_id] })
      else (b, { s with log := s.log ++ [.vdetail vote_id],
                        vtb := (vote_id, b) :: s.vtb })

/-- `fetch_proyecto_id_from_tramitacion(boletin)`: empty-bulletin guard,
cache lookup, else fetch the tramitacion page and extract `prmID` from the
urgencias link; only a nonempty id is cached. -/
def fetch_proyecto_id_from_tramitacion (env : Env) (boletin : Str) (s : St) :
    Str × St :=
  if boletin = [] then ([], s)
  else
    match alookup boletin s.btp with
    | some p => (p, s)
    | none =>
      match env.projectOf boletin with
      | none =>
        ([], { s with log := s.log ++ [.tram boletin],
                      warn := s.warn ++
                        List.replicate 3 (.attemptFail (.tram boletin)) })
      | some p =>
        if p = [] then ([], { s with log := s.log ++ [.tram boletin] })
        else (p, { s with log := s.log ++ [.tram boletin],
                          btp := (boletin, p) :: s.btp })

/-- `f"{project_id}_{boletin}"`, the composite cache key. -/
def urg_key (project_id boletin : Str) : Str := project_id ++ '_' :: boletin

/-- `fetch_urgencias(project_id, boletin)`: empty-id guard, cache lookup,
else fetch the urgency page; a fetch or parse failure returns `[]` without
caching, a parsed page caches the extracted list (even when empty). -/
def fetch_urgencias (env : Env) (project_id boletin : Str) (s : St) :
    List UrgencyRecord × St :=
  if project_id = [] then ([], s)
  else
    match alookup (urg_key project_id boletin) s.pu with
    | some l => (l, s)
    | none =>
      match env.urgPage project_id boletin with
      | .httpFail =>
        ([], { s with log := s.log ++ [.urgpage project_id boletin],
                      warn := s.warn ++
                        List.replicate 3 (.attemptFail (.urgpage project_id boletin)) })
      | .parseFail =>
        ([], { s with log := s.log ++ [.urgpage project_id boletin] })
      | .ok tables =>
        let l := fetch_urgencias_parse tables
        (l, { s with log := s.log ++ [.urgpage project_id boletin],
                     pu := (urg_key project_id boletin, l) :: s.pu })

/-! ## The per-seed driver loop (`main`) -/

/-- One iteration of the `for vote_id in vote_ids` loop in `main`:
resolve bulletin, project id and urgencies, then append one row per
urgency, or one all-empty row when the list is empty. -/
def processVote (env : Env) (vote_id : Str) (s : St) : St :=
  let r₁ := fetch_boletin_for_vote env vote_id s
  if r₁.1 = [] then r₁.2
  else
    let r₂ := fetch_proyecto_id_from_tramitacion env r₁.1 r₁.2
    if r₂.1 = [] then { r₂.2 with warn := r₂.2.warn ++ [.noProjectId r₁.1] }
    else
      let r₃ := fetch_urgencias env r₂.1 r₁.1 r₂.2
      if r₃.1 = [] then
        { r₃.2 with out := r₃.2.out ++ [⟨vote_id, r₁.1, r₂.1, emptyUrg⟩] }
      else
        { r₃.2 with out := r₃.2.out ++
            r₃.1.map (fun u => ⟨vote_id, r₁.1, r₂.1, u⟩) }

/-- The whole run over the seed vote ids. -/
def runAll (env : Env) (votes : List Str) (s : St) : St :=
  votes.foldl (fun s v => processVote env v s) s

/-! ## State-shape lemmas for the stages -/

theorem countEv_append (e : FetchEv) (l₁ l₂ : List FetchEv) :
    countEv e (l₁ ++ l₂) = countEv e l₁ + countEv e l₂ := by
  simp [countEv, List.filter_append]

theorem countEv_single (e e₂ : FetchEv) :
    countEv e [e₂] = if e₂ = e then 1 else 0 := by
  by_cases h : e₂ = e <;> simp [countEv, h]

theorem fbv_shape (env : Env) (v : Str) (s : St) :
    ((fetch_boletin_for_vote env v s).2.btp = s.btp ∧
     (fetch_boletin_for_vote env v s).2.pu = s.pu ∧
     (fetch_boletin_for_vote env v s).2.out = s.out) ∧
    ((fetch_boletin_for_vote env v s).2.log = s.log ∨
     (fetch_boletin_for_vote env v s).2.log = s.log ++ [.vdetail v]) := by
  unfold fetch_boletin_for_vote
  cases alookup v s.vtb with
  | some b => exact ⟨⟨rfl, rfl, rfl⟩, Or.inl rfl⟩
  | none =>
    cases env.boletinOf v with
    | none => exact ⟨⟨rfl, rfl, rfl⟩, Or.inr rfl⟩
    | some b => by_cases hb : b = [] <;> simp [hb]

theorem fbv_warn_of_some (env : Env) (v : Str) (s : St)
    (h : (env.boletinOf v).isSome ∨ (alookup v s.vtb).isSome) :
    (fetch_boletin_for_vote env v s).2.warn = s.warn := by
  unfold fetch_boletin_for_vote
  cases hv : alookup v s.vtb with
  | some b => rfl
  | none =>
    cases hb : env.boletinOf v with
    | none => simp [hv, hb] at h
    | some b => by_cases hbe : b = [] <;> simp [hbe]

theorem fpt_shape (env : Env) (b : Str) (s : St) :
    ((fetch_proyecto_id_from_tramitacion env b s).2.vtb = s.vtb ∧
     (fetch_proyecto_id_from_tramitacion env b s).2.pu = s.pu ∧
     (fetch_proyecto_id_from_tramitacion env b s).2.out = s.out) ∧
    ((fetch_proyecto_id_from_tramitacion env b s).2.log = s.log ∨
     (fetch_proyecto_id_from_tramitacion env b s).2.log = s.log ++ [.tram b]) := by
  unfold fetch_proyecto_id_from_tramitacion
  by_cases hb : b = []
  · simp [hb]
  · rw [if_neg hb]
    cases alookup b s.btp with
    | some p => exact ⟨⟨rfl, rfl, rfl⟩, Or.inl rfl⟩
    | none =>
      cases env.projectOf b with
      | none => exact ⟨⟨rfl, rfl, rfl⟩, Or.inr rfl⟩
      | some p => by_cases hp : p = [] <;> simp [hp]

theorem fu_shape (env : Env) (p b : Str) (s : St) :
    ((fetch_urgencias env p b s).2.vtb = s.vtb ∧
     (fetch_urgencias env p b s).2.btp = s.btp ∧
     (fetch_urgencias env p b s).2.out = s.out) ∧
    ((fetch_urgencias env p b s).2.log = s.log ∨
     (fetch_urgencias env p b s).2.log = s.log ++ [.urgpage p b]) := by
  unfold fetch_urgencias
  by_cases hp : p = []
  · simp [hp]
  · rw [if_neg hp]
    cases alookup (urg_key p b) s.pu with
    | some l => exact ⟨⟨rfl, rfl, rfl⟩, Or.inl rfl⟩
    | none =>
      cases env.urgPage p b with
      | httpFail => exact ⟨⟨rfl, rfl, rfl⟩, Or.inr rfl⟩
      | parseFail => exact ⟨⟨rfl, rfl, rfl⟩, Or.inr rfl⟩
      | ok tables => exact ⟨⟨rfl, rfl, rfl⟩, Or.inr rfl⟩

/-! ## Claim C9: normalizer idempotence -/

/-- C9: the text normalizer `clean_text` is idempotent: for every string
`x`, `clean_text (clean_text x) = clean_text x`. -/
theorem clean_text_idempotent (x : Str) :
    clean_text (clean_text x) = clean_text x := by
  unfold clean_text
  by_cases hx : x = []
  · simp [hx]
  · rw [if_neg hx]
    by_cases hj : joinSpace (pwords x) = []
    · rw [hj]; simp
    · rw [if_neg hj, pwords_joinSpace (pwords_words x)]

/-! ## Claim C5: retry bound -/

/-- C5: when every attempt fails, `fetch_content` performs exactly
`retries` attempts and returns `none` rather than raising. -/
theorem retry_bound (oracle : Nat → Option Str) (retries : Nat) (s : ℚ)
    (h : ∀ i, oracle i = none) :
    (fetch_content oracle retries s).1 = none ∧
    (fetch_content oracle retries s).2.2 = retries := by
  rw [fetch_content, fetchGo_all_fail oracle s h retries 0]
  exact ⟨rfl, rfl⟩

/-- An oracle on which every attempt fails. -/
def failOracle : Nat → Option Str := fun _ => none

theorem retry_bound_witness :
    (fetch_content failOracle).1 = none ∧
    (fetch_content failOracle).2.2 = 3 :=
  retry_bound failOracle 3 (1/2) (fun _ => rfl)

/-! ## Claim C6: the sleep schedule -/

/-- C6 (as stated) is false: under repeated failure with the default
delay 1/2, the sleep schedule is `[1/2, 1, 1/2, 1, 1/2, 1]` — the third
sleep is not double the second, so the schedule is not a doubling backoff. -/
theorem backoff_counterexample :
    (fetch_content failOracle).2.1 = [1/2, 1, 1/2, 1, 1/2, 1] ∧
    ¬ ((fetch_content failOracle).2.1.getD 2 0 =
        2 * (fetch_content failOracle).2.1.getD 1 0) := by
  have h : (fetch_content failOracle).2.1 = [1/2, 1, 1/2, 1, 1/2, 1] := by
    rw [fetch_content, fetchGo_all_fail failOracle (1/2) (fun _ => rfl) 3 0]
    norm_num [List.replicate]
  refine ⟨h, ?_⟩
  rw [h]
  norm_num [List.getD]

/-- C6 (amended): `fetch_content` sleeps the configured delay before every
attempt (including the first) and additionally sleeps twice that delay
after each failed attempt; the delay is never updated, so under repeated
failure the schedule is the fixed cycle `[s, s * 2]` repeated `retries`
times — constant, not doubling. -/
theorem sleep_schedule_constant (oracle : Nat → Option Str) (retries : Nat)
    (s : ℚ) (h : ∀ i, oracle i = none) :
    (fetch_content oracle retries s).2.1 =
      (List.replicate retries [s, s * 2]).flatten := by
  rw [fetch_content, fetchGo_all_fail oracle s h retries 0]

theorem sleep_schedule_constant_witness :
    (fetch_content failOracle).2.1 =
      (List.replicate 3 [(1 : ℚ)/2, (1/2) * 2]).flatten :=
  sleep_schedule_constant failOracle 3 (1/2) (fun _ => rfl)

/-! ## Claim C1: left-join completeness -/

/-- C1: for a seed whose chain fully resolves (nonempty bulletin and
nonempty project id), `main` appends exactly `max 1 (number of urgency
records)` rows: one per urgency record when the list is nonempty, and a
single row with all urgency fields empty when it is empty. -/
theorem left_join_row_count (env : Env) (v : Str) (s : St)
    (b pid : Str) (s₁ s₂ : St) (ul : List UrgencyRecord) (s₃ : St)
    (h₁ : fetch_boletin_for_vote env v s = (b, s₁))
    (h₂ : fetch_proyecto_id_from_tramitacion env b s₁ = (pid, s₂))
    (h₃ : fetch_urgencias env pid b s₂ = (ul, s₃))
    (hb : b ≠ []) (hp : pid ≠ []) :
    (processVote env v s).out =
      s.out ++ (if ul = [] then [⟨v, b, pid, emptyUrg⟩]
                else ul.map fun u => ⟨v, b, pid, u⟩) ∧
    (processVote env v s).out.length = s.out.length + max 1 ul.length := by
  have e₁ : s₁.out = s.out := by
    have h := (fbv_shape env v s).1.2.2
    rw [h₁] at h; exact h
  have e₂ : s₂.out = s₁.out := by
    have h := (fpt_shape env b s₁).1.2.2
    rw [h₂] at h; exact h
  have e₃ : s₃.out = s₂.out := by
    have h := (fu_shape env pid b s₂).1.2.2
    rw [h₃] at h; exact h
  have hout : s₃.out = s.out := by rw [e₃, e₂, e₁]
  have hpv : processVote env v s =
      (if ul = [] then { s₃ with out := s₃.out ++ [⟨v, b, pid, emptyUrg⟩] }
       else { s₃ with out := s₃.out ++ ul.map fun u => ⟨v, b, pid, u⟩ }) := by
    simp only [processVote, h₁, h₂, h₃]
    rw [if_neg hb, if_neg hp]
  constructor
  · rw [hpv]
    by_cases hu : ul = [] <;> simp [hu, hout]
  · rw [hpv]
    by_cases hu : ul = []
    · simp [hu, hout]
    · have : 1 ≤ ul.length := List.length_pos.mpr hu
      simp only [if_neg hu, List.length_append, List.length_map, hout]
      omega

/-- Environment for the fully-resolving concrete scenario: every vote
yields bulletin `"b"`, every bulletin yields project id `"5"`, and the
urgency page parses but contains no matching table. -/
def envC1 : Env :=
  ⟨fun _ => some ['b'], fun _ => some ['5'], fun _ _ => PageResult.ok []⟩

theorem left_join_row_count_witness :
    (processVote envC1 ['1'] st0).out =
      st0.out ++ [⟨['1'], ['b'], ['5'], emptyUrg⟩] ∧
    (processVote envC1 ['1'] st0).out.length = st0.out.length + max 1 0 := by
  have h := left_join_row_count envC1 ['1'] st0
    (fetch_boletin_for_vote envC1 ['1'] st0).1
    (fetch_proyecto_id_from_tramitacion envC1
      (fetch_boletin_for_vote envC1 ['1'] st0).1
      (fetch_boletin_for_vote envC1 ['1'] st0).2).1
    (fetch_boletin_for_vote envC1 ['1'] st0).2
    (fetch_proyecto_id_from_tramitacion envC1
      (fetch_boletin_for_vote envC1 ['1'] st0).1
      (fetch_boletin_for_vote envC1 ['1'] st0).2).2
    (fetch_urgencias envC1
      (fetch_proyecto_id_from_tramitacion envC1
        (fetch_boletin_for_vote envC1 ['1'] st0).1
        (fetch_boletin_for_vote envC1 ['1'] st0).2).1
      (fetch_boletin_for_vote envC1 ['1'] st0).1
      (fetch_proyecto_id_from_tramitacion envC1
        (fetch_boletin_for_vote envC1 ['1'] st0).1
        (fetch_boletin_for_vote envC1 ['1'] st0).2).2).1
    (fetch_urgencias envC1
      (fetch_proyecto_id_from_tramitacion envC1
        (fetch_boletin_for_vote envC1 ['1'] st0).1
        (fetch_boletin_for_vote envC1 ['1'] st0).2).1
      (fetch_boletin_for_vote envC1 ['1'] st0).1
      (fetch_proyecto_id_from_tramitacion envC1
        (fetch_boletin_for_vote envC1 ['1'] st0).1
        (fetch_boletin_for_vote envC1 ['1'] st0).2).2).2
    rfl rfl rfl (by decide) (by decide)
  exact h

/-! ## Claim C4: chain short-circuit -/

/-- C4: when the structured-record stage yields an empty bulletin for a
seed, the loop iteration stops at stage one: the state is exactly the
post-stage-one state, no output row is appended, and the only fetch that
may have occurred for the seed is the vote-detail one — in particular no
procedural-tracking (`tram`) and no urgency-listing (`urgpage`) fetch
happens, and `fetch_proyecto_id_from_tramitacion` on an empty bulletin is
a no-op. -/
theorem chain_short_circuit (env : Env) (v : Str) (s : St)
    (h : (fetch_boletin_for_vote env v s).1 = []) :
    processVote env v s = (fetch_boletin_for_vote env v s).2 ∧
    (processVote env v s).out = s.out ∧
    ((processVote env v s).log = s.log ∨
     (processVote env v s).log = s.log ++ [FetchEv.vdetail v]) ∧
    (∀ bb : Str, countEv (.tram bb) (processVote env v s).log =
      countEv (.tram bb) s.log) ∧
    (∀ pp bb : Str, countEv (.urgpage pp bb) (processVote env v s).log =
      countEv (.urgpage pp bb) s.log) ∧
    fetch_proyecto_id_from_tramitacion env [] s = ([], s) := by
  have hpv : processVote env v s = (fetch_boletin_for_vote env v s).2 := by
    simp only [processVote]
    rw [if_pos h]
  have hlog := (fbv_shape env v s).2
  have hcount : ∀ e : FetchEv, (∀ w : Str, e ≠ .vdetail w) →
      countEv e (processVote env v s).log = countEv e s.log := by
    intro e he
    rw [hpv]
    rcases hlog with h2 | h2 <;> rw [h2]
    rw [countEv_append, countEv_single, if_neg (fun hc => he v hc.symm)]
    omega
  refine ⟨hpv, ?_, ?_, ?_, ?_, ?_⟩
  · rw [hpv]; exact (fbv_shape env v s).1.2.2
  · rw [hpv]; exact hlog
  · intro bb; exact hcount (.tram bb) (by intro w hw; cases hw)
  · intro pp bb; exact hcount (.urgpage pp bb) (by intro w hw; cases hw)
  · rw [fetch_proyecto_id_from_tramitacion, if_pos rfl]

/-- Environment where the vote-detail page parses but carries no
`Boletin` element, so the extracted bulletin is empty. -/
def envC4 : Env :=
  ⟨fun _ => some [], fun _ => some ['5'], fun _ _ => PageResult.ok []⟩

theorem chain_short_circuit_witness :
    (processVote envC4 ['7'] st0).out = st0.out ∧
    countEv (.tram ['b']) (processVote envC4 ['7'] st0).log =
      countEv (.tram ['b']) st0.log := by
  have h := chain_short_circuit envC4 ['7'] st0 (by decide)
  exact ⟨h.2.1, h.2.2.2.1 ['b']⟩

/-! ## Claim C7: empty-bulletin seed -/

/-- Environment for seed `"999"`: the vote-detail fetch succeeds but the
record has no bulletin, the tramitacion lookup would fail, the urgency
page would not fetch. -/
def envC7 : Env :=
  ⟨fun _ => some [], fun _ => none, fun _ _ => PageResult.httpFail⟩

/-- C7 (as stated) is false: for seed `"999"` whose structured record
yields an empty bulletin, the code emits zero rows and continues, but logs
no warning at all — `main` just `continue`s without logging, so "exactly
one warning" fails. -/
theorem warn999_counterexample :
    (processVote envC7 ['9', '9', '9'] st0).out = [] ∧
    (processVote envC7 ['9', '9', '9'] st0).warn = [] ∧
    ¬ ((processVote envC7 ['9', '9', '9'] st0).warn.length = 1) := by
  refine ⟨by decide, by decide, by decide⟩

/-- C7 (amended): when the structured-record stage yields an empty
bulletin, zero output rows are emitted for that seed and the run continues
to the next seed, but no warning is logged for that seed (provided the
failure is not an HTTP retry exhaustion, i.e. the stage actually fetched a
record or hit the cache): the per-seed warning in `main` exists only for a
missing project id. -/
theorem empty_bulletin_no_warning (env : Env) (v : Str) (s : St)
    (h : (fetch_boletin_for_vote env v s).1 = [])
    (hsome : (env.boletinOf v).isSome ∨ (alookup v s.vtb).isSome) :
    (processVote env v s).out = s.out ∧
    (processVote env v s).warn = s.warn ∧
    (∀ rest : List Str,
      runAll env (v :: rest) s = runAll env rest (processVote env v s)) := by
  have hpv : processVote env v s = (fetch_boletin_for_vote env v s).2 := by
    simp only [processVote]
    rw [if_pos h]
  refine ⟨?_, ?_, fun rest => rfl⟩
  · rw [hpv]; exact (fbv_shape env v s).1.2.2
  · rw [hpv]; exact fbv_warn_of_some env v s hsome

theorem empty_bulletin_no_warning_witness :
    (processVote envC7 ['9', '9', '9'] st0).out = st0.out ∧
    (processVote envC7 ['9', '9', '9'] st0).warn = st0.warn := by
  have h := empty_bulletin_no_warning envC7 ['9', '9', '9'] st0
    (by decide) (Or.inl rfl)
  exact ⟨h.1, h.2.1⟩

/-! ## Claim C2: tramitacion memoization -/

/-- Run invariant for a bulletin `b` whose tramitacion lookup succeeds:
the page was fetched at most once, and if it was never cached it was never
fetched. -/
def TramInv (b : Str) (s : St) : Prop :=
  countEv (.tram b) s.log ≤ 1 ∧
  (alookup b s.btp = none → countEv (.tram b) s.log = 0)

theorem traminv_of_shape {b : Str} {s s₂ : St} (h : TramInv b s)
    (hbtp : s₂.btp = s.btp)
    (hlog : s₂.log = s.log ∨ ∃ e, s₂.log = s.log ++ [e] ∧ e ≠ FetchEv.tram b) :
    TramInv b s₂ := by
  obtain ⟨h1, h2⟩ := h
  have hc : countEv (.tram b) s₂.log = countEv (.tram b) s.log := by
    rcases hlog with he | ⟨e, he, hne⟩ <;> rw [he]
    rw [countEv_append, countEv_single, if_neg hne]
    omega
  refine ⟨by rw [hc]; exact h1, fun hl => by rw [hc]; exact h2 (hbtp ▸ hl)⟩

theorem fbv_traminv (env : Env) (v : Str) (s : St) {b : Str}
    (h : TramInv b s) : TramInv b (fetch_boletin_for_vote env v s).2 := by
  refine traminv_of_shape h (fbv_shape env v s).1.1 ?_
  rcases (fbv_shape env v s).2 with he | he
  · exact Or.inl he
  · exact Or.inr ⟨_, he, by intro hc; cases hc⟩

theorem fu_traminv (env : Env) (p bol : Str) (s : St) {b : Str}
    (h : TramInv b s) : TramInv b (fetch_urgencias env p bol s).2 := by
  refine traminv_of_shape h (fu_shape env p bol s).1.2.1 ?_
  rcases (fu_shape env p bol s).2 with he | he
  · exact Or.inl he
  · exact Or.inr ⟨_, he, by intro hc; cases hc⟩

theorem fpt_traminv (env : Env) {b p : Str}
    (hb : env.projectOf b = some p) (hp : p ≠ [])
    (bol : Str) (s : St) (h : TramInv b s) :
    TramInv b (fetch_proyecto_id_from_tramitacion env bol s).2 := by
  unfold fetch_proyecto_id_from_tramitacion
  split
  · exact h
  next hbe =>
    split
    next q hq => exact h
    next hq =>
      split
      next hpo =>
        by_cases hbb : bol = b
        · subst hbb; rw [hb] at hpo; cases hpo
        · exact traminv_of_shape h rfl
            (Or.inr ⟨FetchEv.tram bol, rfl, by simp [hbb]⟩)
      next q hpo =>
        split
        next hqe =>
          by_cases hbb : bol = b
          · subst hbb
            rw [hb] at hpo
            injection hpo with hqp
            exact absurd (hqp ▸ hqe) hp
          · exact traminv_of_shape h rfl
              (Or.inr ⟨FetchEv.tram bol, rfl, by simp [hbb]⟩)
        next hqe =>
          by_cases hbb : bol = b
          · subst hbb
            obtain ⟨h1, h2⟩ := h
            have hz : countEv (.tram bol) s.log = 0 := h2 hq
            refine ⟨?_, ?_⟩
            · show countEv (.tram bol) (s.log ++ [.tram bol]) ≤ 1
              rw [countEv_append, countEv_single, if_pos rfl, hz]
            · intro hl
              exfalso
              have hl2 : alookup bol ((bol, q) :: s.btp) = none := hl
              rw [show alookup bol ((bol, q) :: s.btp) = some q by
                simp [alookup]] at hl2
              cases hl2
          · obtain ⟨h1, h2⟩ := h
            have hc : countEv (.tram b) (s.log ++ [.tram bol]) =
                countEv (.tram b) s.log := by
              rw [countEv_append, countEv_single, if_neg (by simp [hbb])]
              omega
            refine ⟨?_, ?_⟩
            · show countEv (.tram b) (s.log ++ [.tram bol]) ≤ 1
              rw [hc]; exact h1
            · intro hl
              show countEv (.tram b) (s.log ++ [.tram bol]) = 0
              rw [hc]
              apply h2
              have hl2 : alookup b ((bol, q) :: s.btp) = none := hl
              rw [show alookup b ((bol, q) :: s.btp) = alookup b s.btp by
                simp [alookup, hbb]] at hl2
              exact hl2

theorem processVote_traminv (env : Env) {b p : Str}
    (hb : env.projectOf b = some p) (hp : p ≠ [])
    (v : Str) (s : St) (h : TramInv b s) :
    TramInv b (processVote env v s) := by
  simp only [processVote]
  have h₁ : TramInv b (fetch_boletin_for_vote env v s).2 :=
    fbv_traminv env v s h
  by_cases e₁ : (fetch_boletin_for_vote env v s).1 = []
  · rw [if_pos e₁]; exact h₁
  · rw [if_neg e₁]
    have h₂ : TramInv b (fetch_proyecto_id_from_tramitacion env
        (fetch_boletin_for_vote env v s).1
        (fetch_boletin_for_vote env v s).2).2 :=
      fpt_traminv env hb hp _ _ h₁
    by_cases e₂ : (fetch_proyecto_id_from_tramitacion env
        (fetch_boletin_for_vote env v s).1
        (fetch_boletin_for_vote env v s).2).1 = []
    · rw [if_pos e₂]; exact h₂
    · rw [if_neg e₂]
      have h₃ : TramInv b (fetch_urgencias env
          (fetch_proyecto_id_from_tramitacion env
            (fetch_boletin_for_vote env v s).1
            (fetch_boletin_for_vote env v s).2).1
          (fetch_boletin_for_vote env v s).1
          (fetch_proyecto_id_from_tramitacion env
            (fetch_boletin_for_vote env v s).1
            (fetch_boletin_for_vote env v s).2).2).2 :=
        fu_traminv env _ _ _ h₂
      by_cases e₃ : (fetch_urgencias env
          (fetch_proyecto_id_from_tramitacion env
            (fetch_boletin_for_vote env v s).1
            (fetch_boletin_for_vote env v s).2).1
          (fetch_boletin_for_vote env v s).1
          (fetch_proyecto_id_from_tramitacion env
            (fetch_boletin_for_vote env v s).1
            (fetch_boletin_for_vote env v s).2).2).1 = []
      · rw [if_pos e₃]; exact h₃
      · rw [if_neg e₃]; exact h₃

theorem runAll_traminv (env : Env) {b p : Str}
    (hb : env.projectOf b = some p) (hp : p ≠ [])
    (votes : List Str) (s : St) (h : TramInv b s) :
    TramInv b (runAll env votes s) := by
  induction votes generalizing s with
  | nil => simpa [runAll] using h
  | cons v vs ih =>
    simp only [runAll, List.foldl_cons]
    exact ih _ (processVote_traminv env hb hp v s h)

/-- C2 (amended): for any run from the initial state, if the tramitacion
lookup for a bulletin yields a nonempty project id, the tramitacion
endpoint is fetched at most once for that bulletin across the whole run;
the unconditional claim fails for bulletins whose lookup yields no project
id, since that negative result is deliberately not cached. -/
theorem tram_fetch_at_most_once (env : Env) (votes : List Str) (b p : Str)
    (hb : env.projectOf b = some p) (hp : p ≠ []) :
    countEv (.tram b) (runAll env votes st0).log ≤ 1 :=
  (runAll_traminv env hb hp votes st0
    ⟨by simp [st0, countEv], fun _ => by simp [st0, countEv]⟩).1

/-- Environment refuting the unconditional claim: both seeds resolve to
bulletin `"b"`, whose tramitacion page has no urgencias link, so the
project id is empty and nothing is cached. -/
def envC2 : Env :=
  ⟨fun _ => some ['b'], fun _ => some [], fun _ _ => PageResult.parseFail⟩

/-- C2 (as stated) is false: two seeds resolving to the same bulletin can
cause two tramitacion fetches for that bulletin when the lookup finds no
project id, because negative results are not cached. -/
theorem tram_refetch_counterexample :
    countEv (.tram ['b']) (runAll envC2 [['1'], ['2']] st0).log = 2 ∧
    ¬ (countEv (.tram ['b']) (runAll envC2 [['1'], ['2']] st0).log ≤ 1) := by
  refine ⟨by decide, by decide⟩

/-- Environment for the memoization witness: both seeds resolve to
bulletin `"b"`, which resolves to project id `"5"`. -/
def envC2w : Env :=
  ⟨fun _ => some ['b'], fun _ => some ['5'], fun _ _ => PageResult.ok []⟩

theorem tram_fetch_at_most_once_witness :
    countEv (.tram ['b']) (runAll envC2w [['1'], ['2']] st0).log ≤ 1 :=
  tram_fetch_at_most_once envC2w [['1'], ['2']] ['b'] ['5'] rfl (by decide)

/-! ## Claim C3: no negative caching -/

theorem fbv_eq_none (env : Env) (v : Str) (s : St)
    (h : alookup v s.vtb = none) (hbo : env.boletinOf v = none) :
    fetch_boletin_for_vote env v s =
      ([], { s with log := s.log ++ [.vdetail v],
                    warn := s.warn ++
                      List.replicate 3 (.attemptFail (.vdetail v)) }) := by
  unfold fetch_boletin_for_vote
  simp only [h, hbo]

theorem fbv_eq_empty (env : Env) (v : Str) (s : St)
    (h : alookup v s.vtb = none) (hbo : env.boletinOf v = some []) :
    fetch_boletin_for_vote env v s =
      ([], { s with log := s.log ++ [.vdetail v] }) := by
  unfold fetch_boletin_for_vote
  simp only [h, hbo]
  simp

theorem fbv_eq_pos (env : Env) (v bb : Str) (s : St)
    (h : alookup v s.vtb = none) (hbo : env.boletinOf v = some bb)
    (hbe : bb ≠ []) :
    fetch_boletin_for_vote env v s =
      (bb, { s with log := s.log ++ [.vdetail v],
                    vtb := (v, bb) :: s.vtb }) := by
  unfold fetch_boletin_for_vote
  simp only [h, hbo]
  rw [if_neg hbe]

theorem fpt_eq_none (env : Env) (b : Str) (s : St) (hb : b ≠ [])
    (h : alookup b s.btp = none) (hpo : env.projectOf b = none) :
    fetch_proyecto_id_from_tramitacion env b s =
      ([], { s with log := s.log ++ [.tram b],
                    warn := s.warn ++
                      List.replicate 3 (.attemptFail (.tram b)) }) := by
  unfold fetch_proyecto_id_from_tramitacion
  rw [if_neg hb]
  simp only [h, hpo]

theorem fpt_eq_empty (env : Env) (b : Str) (s : St) (hb : b ≠ [])
    (h : alookup b s.btp = none) (hpo : env.projectOf b = some []) :
    fetch_proyecto_id_from_tramitacion env b s =
      ([], { s with log := s.log ++ [.tram b] }) := by
  unfold fetch_proyecto_id_from_tramitacion
  rw [if_neg hb]
  simp only [h, hpo]
  simp

theorem fpt_eq_pos (env : Env) (b q : Str) (s : St) (hb : b ≠ [])
    (h : alookup b s.btp = none) (hpo : env.projectOf b = some q)
    (hq : q ≠ []) :
    fetch_proyecto_id_from_tramitacion env b s =
      (q, { s with log := s.log ++ [.tram b],
                   btp := (b, q) :: s.btp }) := by
  unfold fetch_proyecto_id_from_tramitacion
  rw [if_neg hb]
  simp only [h, hpo]
  rw [if_neg hq]

theorem fu_eq_http (env : Env) (pid b : Str) (s : St) (hp : pid ≠ [])
    (h : alookup (urg_key pid b) s.pu = none)
    (hpg : env.urgPage pid b = .httpFail) :
    fetch_urgencias env pid b s =
      ([], { s with log := s.log ++ [.urgpage pid b],
                    warn := s.warn ++
                      List.replicate 3 (.attemptFail (.urgpage pid b)) }) := by
  unfold fetch_urgencias
  rw [if_neg hp]
  simp only [h, hpg]

theorem fu_eq_parsefail (env : Env) (pid b : Str) (s : St) (hp : pid ≠ [])
    (h : alookup (urg_key pid b) s.pu = none)
    (hpg : env.urgPage pid b = .parseFail) :
    fetch_urgencias env pid b s =
      ([], { s with log := s.log ++ [.urgpage pid b] }) := by
  unfold fetch_urgencias
  rw [if_neg hp]
  simp only [h, hpg]

theorem fu_eq_ok (env : Env) (pid b : Str) (s : St)
    (tables : List Table) (hp : pid ≠ [])
    (h : alookup (urg_key pid b) s.pu = none)
    (hpg : env.urgPage pid b = .ok tables) :
    fetch_urgencias env pid b s =
      (fetch_urgencias_parse tables,
       { s with log := s.log ++ [.urgpage pid b],
                pu := (urg_key pid b, fetch_urgencias_parse tables) :: s.pu }) := by
  unfold fetch_urgencias
  rw [if_neg hp]
  simp only [h, hpg]

/-- A cache miss always performs the fetch, whatever its outcome. -/
theorem fbv_miss_log (env : Env) (v : Str) (s : St)
    (h : alookup v s.vtb = none) :
    (fetch_boletin_for_vote env v s).2.log =
      s.log ++ [FetchEv.vdetail v] := by
  unfold fetch_boletin_for_vote
  simp only [h]
  cases env.boletinOf v with
  | none => rfl
  | some bb => by_cases hbe : bb = [] <;> simp [hbe]

/-- A cache miss on a nonempty bulletin always performs the fetch. -/
theorem fpt_miss_log (env : Env) (b : Str) (s : St) (hb : b ≠ [])
    (h : alookup b s.btp = none) :
    (fetch_proyecto_id_from_tramitacion env b s).2.log =
      s.log ++ [FetchEv.tram b] := by
  unfold fetch_proyecto_id_from_tramitacion
  rw [if_neg hb]
  simp only [h]
  cases env.projectOf b with
  | none => rfl
  | some q => by_cases hq : q = [] <;> simp [hq]

/-- A cache miss on a nonempty project id always performs the fetch. -/
theorem fu_miss_log (env : Env) (pid b : Str) (s : St) (hp : pid ≠ [])
    (h : alookup (urg_key pid b) s.pu = none) :
    (fetch_urgencias env pid b s).2.log =
      s.log ++ [FetchEv.urgpage pid b] := by
  unfold fetch_urgencias
  rw [if_neg hp]
  simp only [h]
  cases env.urgPage pid b with
  | httpFail => rfl
  | parseFail => rfl
  | ok tables => rfl

/-- C3: in each stage, a run that produces "no value" (empty bulletin,
empty project id, or a fetch/parse failure) leaves that stage's cache
unchanged, so an immediate second call with the same key performs a new
network fetch; a positive result is inserted into the cache. -/
theorem no_negative_caching (env : Env) (v b pid bol : Str)
    (s₁ s₂ s₃ : St)
    (h₁ : alookup v s₁.vtb = none)
    (hb : b ≠ []) (h₂ : alookup b s₂.btp = none)
    (hpid : pid ≠ []) (h₃ : alookup (urg_key pid bol) s₃.pu = none) :
    (((fetch_boletin_for_vote env v s₁).1 = [] →
        (fetch_boletin_for_vote env v s₁).2.vtb = s₁.vtb ∧
        (fetch_boletin_for_vote env v
            (fetch_boletin_for_vote env v s₁).2).2.log =
          (fetch_boletin_for_vote env v s₁).2.log ++ [FetchEv.vdetail v]) ∧
      ((fetch_boletin_for_vote env v s₁).1 ≠ [] →
        (fetch_boletin_for_vote env v s₁).2.vtb =
          (v, (fetch_boletin_for_vote env v s₁).1) :: s₁.vtb)) ∧
    (((fetch_proyecto_id_from_tramitacion env b s₂).1 = [] →
        (fetch_proyecto_id_from_tramitacion env b s₂).2.btp = s₂.btp ∧
        (fetch_proyecto_id_from_tramitacion env b
            (fetch_proyecto_id_from_tramitacion env b s₂).2).2.log =
          (fetch_proyecto_id_from_tramitacion env b s₂).2.log ++
            [FetchEv.tram b]) ∧
      ((fetch_proyecto_id_from_tramitacion env b s₂).1 ≠ [] →
        (fetch_proyecto_id_from_tramitacion env b s₂).2.btp =
          (b, (fetch_proyecto_id_from_tramitacion env b s₂).1) :: s₂.btp)) ∧
    (((env.urgPage pid bol = .httpFail ∨ env.urgPage pid bol = .parseFail) →
        (fetch_urgencias env pid bol s₃).2.pu = s₃.pu ∧
        (fetch_urgencias env pid bol
            (fetch_urgencias env pid bol s₃).2).2.log =
          (fetch_urgencias env pid bol s₃).2.log ++
            [FetchEv.urgpage pid bol]) ∧
      (∀ tables, env.urgPage pid bol = .ok tables →
        (fetch_urgencias env pid bol s₃).2.pu =
          (urg_key pid bol, fetch_urgencias_parse tables) :: s₃.pu)) := by
  refine ⟨⟨?_, ?_⟩, ⟨?_, ?_⟩, ⟨?_, ?_⟩⟩
  · intro hres
    have hvtb : (fetch_boletin_for_vote env v s₁).2.vtb = s₁.vtb := by
      cases hbo : env.boletinOf v with
      | none => rw [fbv_eq_none env v s₁ h₁ hbo]
      | some bb =>
        by_cases hbe : bb = []
        · rw [hbe] at hbo
          rw [fbv_eq_empty env v s₁ h₁ hbo]
        · rw [fbv_eq_pos env v bb s₁ h₁ hbo hbe] at hres
          exact absurd hres hbe
    exact ⟨hvtb, fbv_miss_log env v _ (by rw [hvtb]; exact h₁)⟩
  · intro hres
    cases hbo : env.boletinOf v with
    | none =>
      rw [fbv_eq_none env v s₁ h₁ hbo] at hres
      exact absurd rfl hres
    | some bb =>
      by_cases hbe : bb = []
      · rw [hbe] at hbo
        rw [fbv_eq_empty env v s₁ h₁ hbo] at hres
        exact absurd rfl hres
      · rw [fbv_eq_pos env v bb s₁ h₁ hbo hbe]
  · intro hres
    have hbtp : (fetch_proyecto_id_from_tramitacion env b s₂).2.btp = s₂.btp := by
      cases hpo : env.projectOf b with
      | none => rw [fpt_eq_none env b s₂ hb h₂ hpo]
      | some q =>
        by_cases hqe : q = []
        · rw [hqe] at hpo
          rw [fpt_eq_empty env b s₂ hb h₂ hpo]
        · rw [fpt_eq_pos env b q s₂ hb h₂ hpo hqe] at hres
          exact absurd hres hqe
    exact ⟨hbtp, fpt_miss_log env b _ hb (by rw [hbtp]; exact h₂)⟩
  · intro hres
    cases hpo : env.projectOf b with
    | none =>
      rw [fpt_eq_none env b s₂ hb h₂ hpo] at hres
      exact absurd rfl hres
    | some q =>
      by_cases hqe : q = []
      · rw [hqe] at hpo
        rw [fpt_eq_empty env b s₂ hb h₂ hpo] at hres
        exact absurd rfl hres
      · rw [fpt_eq_pos env b q s₂ hb h₂ hpo hqe]
  · intro hres
    have hpu : (fetch_urgencias env pid bol s₃).2.pu = s₃.pu := by
      rcases hres with hpg | hpg
      · rw [fu_eq_http env pid bol s₃ hpid h₃ hpg]
      · rw [fu_eq_parsefail env pid bol s₃ hpid h₃ hpg]
    exact ⟨hpu, fu_miss_log env pid bol _ hpid (by rw [hpu]; exact h₃)⟩
  · intro tables hres
    rw [fu_eq_ok env pid bol s₃ tables hpid h₃ hres]

/-- Environment in which every stage resolves to "no value": the vote
detail has no bulletin, the tramitacion page has no urgencias link, and
the urgency page does not parse. -/
def envC3 : Env :=
  ⟨fun _ => some [], fun _ => some [], fun _ _ => PageResult.parseFail⟩

theorem no_negative_caching_witness :
    (fetch_boletin_for_vote envC3 ['1'] st0).2.vtb = st0.vtb ∧
    (fetch_proyecto_id_from_tramitacion envC3 ['b'] st0).2.btp = st0.btp ∧
    (fetch_urgencias envC3 ['5'] ['b'] st0).2.pu = st0.pu := by
  have h := no_negative_caching envC3 ['1'] ['b'] ['5'] ['b'] st0 st0 st0
    rfl (by decide) rfl (by decide) rfl
  exact ⟨(h.1.1 (by decide)).1, (h.2.1.1 (by decide)).1,
    (h.2.2.1 (Or.inr rfl)).1⟩

/-! ## Claim C8: the heuristic table locator -/

theorem findTarget_none {ts : List Table}
    (h : ∀ u ∈ ts, hasMarker u = false) : findTarget ts = none := by
  induction ts with
  | nil => rfl
  | cons t ts ih =>
    rw [findTarget, if_neg (by simp [h t (by simp)])]
    exact ih fun u hu => h u (by simp [hu])

theorem findTarget_first {pre post : List Table} {t : Table}
    (hpre : ∀ u ∈ pre, hasMarker u = false) (ht : hasMarker t = true) :
    findTarget (pre ++ t :: post) = some t := by
  induction pre with
  | nil => rw [List.nil_append, findTarget, if_pos ht]
  | cons u pre ih =>
    rw [List.cons_append, findTarget, if_neg (by simp [hpre u (by simp)])]
    exact ih fun w hw => hpre w (by simp [hw])

theorem length_filterMap_parseRow (rs : List (List Str)) :
    (rs.filterMap parseRow).length =
      (rs.filter (fun r => decide (5 ≤ r.length))).length := by
  induction rs with
  | nil => rfl
  | cons r rs ih =>
    rw [List.filterMap_cons, List.filter_cons]
    by_cases hr : r.length < 5
    · rw [show parseRow r = none by rw [parseRow, if_pos hr]]
      rw [if_neg (show ¬decide (5 ≤ r.length) = true by
        simp only [decide_eq_true_eq]; omega)]
      exact ih
    · rw [if_pos (show decide (5 ≤ r.length) = true by
        simp only [decide_eq_true_eq]; omega)]
      obtain ⟨u, hu⟩ : ∃ u, parseRow r = some u := by
        rw [parseRow, if_neg hr]; exact ⟨_, rfl⟩
      rw [hu]
      simp only [List.length_cons, ih]

/-- C8: the extractor scans tables in document order and selects the first
whose aggregate text contains a marker phrase; it skips that table's first
row as a header and produces one record per remaining row with at least 5
cells (rows with fewer are skipped); when no table matches it returns the
empty list. -/
theorem table_locator_spec (tables pre post : List Table) (t : Table)
    (hsplit : tables = pre ++ t :: post)
    (hpre : ∀ u ∈ pre, hasMarker u = false)
    (ht : hasMarker t = true) :
    fetch_urgencias_parse tables = (t.rows.drop 1).filterMap parseRow ∧
    (fetch_urgencias_parse tables).length =
      ((t.rows.drop 1).filter (fun r => decide (5 ≤ r.length))).length ∧
    (∀ ts : List Table, (∀ u ∈ ts, hasMarker u = false) →
      fetch_urgencias_parse ts = []) := by
  have hfind : findTarget tables = some t := by
    rw [hsplit]; exact findTarget_first hpre ht
  have hmain : fetch_urgencias_parse tables =
      (t.rows.drop 1).filterMap parseRow := by
    rw [fetch_urgencias_parse, hfind]
  refine ⟨hmain, ?_, ?_⟩
  · rw [hmain, length_filterMap_parseRow]
  · intro ts hts
    rw [fetch_urgencias_parse, findTarget_none hts]

/-- A decorative table without marker phrases. -/
def tblPlain : Table := ⟨['x'], [[['x']]]⟩

/-- The urgency table: its aggregate text contains `"Fecha Inicio"`; one
header row, one 5-cell data row, one short decorative row. -/
def tblUrg : Table :=
  ⟨"Fecha Inicio".toList,
   [[['h']],
    [['a'], ['b'], ['c'], ['d'], ['e']],
    [['z']]]⟩

theorem table_locator_spec_witness :
    fetch_urgencias_parse [tblPlain, tblUrg] =
      (tblUrg.rows.drop 1).filterMap parseRow ∧
    (fetch_urgencias_parse [tblPlain, tblUrg]).length =
      ((tblUrg.rows.drop 1).filter (fun r => decide (5 ≤ r.length))).length ∧
    fetch_urgencias_parse [tblPlain] = [] := by
  have h := table_locator_spec [tblPlain, tblUrg] [tblPlain] [] tblUrg
    rfl (by decide) (by decide)
  exact ⟨h.1, h.2.1, h.2.2 [tblPlain] (by decide)⟩

/-! ## Claim C10: five-cell rows -/

/-- C10: a data row with exactly 5 cells is not skipped: it yields a
record whose first five fields are the normalized cell texts in positional
order and whose withdrawal-message field is the empty string; rows with
fewer than 5 cells yield nothing, and every row with at least 5 cells
yields a record. -/
theorem five_cell_row_not_skipped (c₀ c₁ c₂ c₃ c₄ : Str)
    (cols : List Str) :
    parseRow [c₀, c₁, c₂, c₃, c₄] =
      some ⟨clean_text c₀, clean_text c₁, clean_text c₂, clean_text c₃,
            clean_text c₄, []⟩ ∧
    (cols.length < 5 → parseRow cols = none) ∧
    (5 ≤ cols.length → ∃ r, parseRow cols = some r) := by
  refine ⟨?_, ?_, ?_⟩
  · rw [parseRow, if_neg (by simp)]
    rfl
  · intro hlt
    rw [parseRow, if_pos hlt]
  · intro hge
    rw [parseRow, if_neg (by omega)]
    exact ⟨_, rfl⟩

theorem five_cell_row_not_skipped_witness :
    parseRow [['a'], ['b'], ['c'], ['d'], ['e']] =
      some ⟨['a'], ['b'], ['c'], ['d'], ['e'], []⟩ ∧
    parseRow [['a']] = none := by
  have h := five_cell_row_not_skipped ['a'] ['b'] ['c'] ['d'] ['e'] [['a']]
  refine ⟨?_, h.2.1 (by decide)⟩
  rw [h.1]
  simp [clean_text, pwords, joinSpace, isSpacePy]

end Camara
